import Mathlib

/-!
Shallow embedding of `pandas_streaming/core.py` (mrocklin/pandas-streaming).

The source builds typed streaming handles over a push dataflow engine
(streamz): each handle pairs an `example` (a small tabular value used only
for shape/type) with a dataflow node.  We embed a dataflow node by its
denotation: the function sending the list of chunks emitted at the source
to the list of chunks this node outputs.  streamz `map` becomes `List.map`,
`accumulate`/`scan` become explicit list scans, `filter` becomes
`List.filter`.  Numeric cells are rationals; a pandas `DataFrame` chunk is
a column-label list together with rows, each row a function from column
label to value; a pandas `Series` keyed by group labels is a function from
key to `Option` value (absent keys are absent index entries).
-/

/-- Cell values of tabular chunks (pandas numeric cells). -/
abbrev Val := ℚ

/-- A multi-column tabular chunk (pandas `DataFrame`): the ordered column
labels and the rows, each row giving the value in every column. -/
structure DFrame where
  cols : List String
  rows : List (String → Val)

/-- Column-wise sum of a frame (pandas `df.sum()`): a series indexed by the
column labels, here a function from column label to total. -/
def DFrame.sum (df : DFrame) : String → Val :=
  fun c => (df.rows.map (fun r => r c)).sum

/-- Column-wise non-null count of a frame (pandas `df.count()`); the model
has no missing cells, so every column counts all rows. -/
def DFrame.count (df : DFrame) : String → Val :=
  fun _ => (df.rows.length : Val)

/-- pandas `df[c]` (`operator.getitem`) for a single column label: the
column values in row order. -/
def DFrame.getitemCol (df : DFrame) (c : String) : List Val :=
  df.rows.map (fun r => r c)

/-- pandas `getattr(df, c)` for a column name: identical to `df[c]` when
`c` is one of the columns; on any other name pandas raises
`AttributeError`, modelled by the junk value `[]`. -/
def DFrame.getattrCol (df : DFrame) (c : String) : List Val :=
  if c ∈ df.cols then df.getitemCol c else []

/-- pandas `df + y` for a constant scalar `y` (`operator.add` with a
non-streaming right operand): add `y` to every cell. -/
def DFrame.addScalar (df : DFrame) (y : Val) : DFrame :=
  ⟨df.cols, df.rows.map (fun r c => r c + y)⟩

/-- A typed streaming handle (`Streaming` and its subclasses): `ex` is the
`example` attribute (`example` is a Lean keyword, hence the short name);
`proc` is the denotation of the handle's dataflow node — the list of
chunks this node outputs when the chunk list `cs` is emitted at the
source handle.  `α` is the source's chunk type, `β` this node's. -/
structure SStream (α β : Type) where
  ex : β
  proc : List α → List β

/-- A freshly constructed handle over a source node (`Streaming.__init__`
with a fresh `Stream()`): its outputs are exactly the emitted chunks. -/
def sourceHandle (ex : β) : SStream β β :=
  ⟨ex, fun cs => cs⟩

/-- streamz `Stream.accumulate` with an explicit `start` and
`returns_state=False`: state seeded with `start`; for each arriving chunk
the new state `f state chunk` is both stored and emitted. -/
def scanAcc (f : σ → β → σ) (s : σ) : List β → List σ
  | [] => []
  | x :: xs => f s x :: scanAcc f (f s x) xs

/-- streamz `Stream.accumulate` with an explicit `start` and
`returns_state=True`: `f state chunk = (new_state, output)`; the output is
emitted and the new state carried. -/
def scanAccState (f : σ → β → σ × γ) (s : σ) : List β → List γ
  | [] => []
  | x :: xs => (f s x).2 :: scanAccState f (f s x).1 xs

/-- streamz `Stream.accumulate`/`scan` with `start` omitted (the
`no_default` sentinel): the first arriving chunk becomes the state and is
emitted as-is; from the second chunk on it behaves like the seeded scan
with `returns_state=True`. -/
def scanNoStart (f : β → β → β × β) : List β → List β
  | [] => []
  | x :: xs => x :: scanAccState f x xs

/-- Source `Streaming.map_partitions(func, example=...)`: apply `func` to every
chunk; the derived example is the supplied one, or else `func` applied
eagerly to the parent's example.  (The source re-dispatches the wrapper
class on the runtime type of the new example; in the embedding the chunk
type `γ` plays that role.) -/
def Streaming.map_partitions (h : SStream α β) (func : β → γ)
    (examp : Option γ) : SStream α γ :=
  ⟨examp.getD (func h.ex), fun cs => (h.proc cs).map func⟩

/-- Source `Streaming.accumulate_partitions(func, start=s, returns_state=False)`:
fold `func` over the chunk history; the derived example is `func` applied
eagerly to `(start, parent example)`. -/
def Streaming.accumulate_partitions (h : SStream α β) (func : σ → β → σ)
    (start : σ) : SStream α σ :=
  ⟨func start h.ex, fun cs => scanAcc func start (h.proc cs)⟩

/-- Source `Streaming.accumulate_partitions(func, start=s, returns_state=True)`:
as above but `func` returns `(state, visible output)` and the example is
the output component of `func (start, parent example)`. -/
def Streaming.accumulate_partitions_rs (h : SStream α β)
    (func : σ → β → σ × γ) (start : σ) : SStream α γ :=
  ⟨(func start h.ex).2, fun cs => scanAccState func start (h.proc cs)⟩

/-- Source `Streaming.__add__(other)` for a constant scalar operand:
`map_partitions(operator.add, other)`. -/
def Streaming.add (h : SStream α DFrame) (other : Val) : SStream α DFrame :=
  Streaming.map_partitions h (fun df => df.addScalar other) none

/-- Source `_accumulate_sum(accumulator, new) = accumulator + new.sum()`.  The
accumulator is a series over the frame's columns; pandas aligns the two
series by label, here pointwise addition of functions. -/
def _accumulate_sum (accumulator : String → Val) (new : DFrame) :
    String → Val :=
  fun c => accumulator c + new.sum c

/-- Source `StreamingFrame.sum()`:
`accumulate_partitions(_accumulate_sum, start=0)`.  The integer start `0`
broadcasts over the column index in pandas; its embedding is the zero
series. -/
def StreamingFrame.sum (h : SStream α DFrame) : SStream α (String → Val) :=
  Streaming.accumulate_partitions h _accumulate_sum (fun _ => 0)

/-- The running-mean accumulator state: the `sums` and `counts` columns of
the state frame indexed by the data frame's columns (the `start` frame
`pd.DataFrame({'sums': 0, 'counts': 0}, index=example.columns)`). -/
structure MeanState where
  sums : String → Val
  counts : String → Val

/-- Source `_accumulate_mean(accumulator, new)`: add `new.sum()` into `sums` and
`new.count()` into `counts` (on a copy of the accumulator — the copying
itself is modelled separately, store-passing, below), and emit the fresh
pointwise ratio `sums / counts`; the ratio is not part of the state. -/
def _accumulate_mean (accumulator : MeanState) (new : DFrame) :
    MeanState × (String → Val) :=
  let acc : MeanState :=
    ⟨fun c => accumulator.sums c + new.sum c,
     fun c => accumulator.counts c + new.count c⟩
  (acc, fun c => acc.sums c / acc.counts c)

/-- Source `StreamingDataFrame.mean()`:
`accumulate_partitions(_accumulate_mean, start=zero sums/counts,
returns_state=True)`. -/
def StreamingDataFrame.mean (h : SStream α DFrame) :
    SStream α (String → Val) :=
  Streaming.accumulate_partitions_rs h _accumulate_mean ⟨fun _ => 0, fun _ => 0⟩

/-- The state reached by a `returns_state=True` accumulation after
consuming a chunk list (the carried component of the scan). -/
def scanState (f : σ → β → σ × γ) (s : σ) (l : List β) : σ :=
  l.foldl (fun a b => (f a b).1) s

/-- One row of a single-column time-indexed chunk (a pandas `Series`
element together with its index label), as consumed by `_roll`. -/
structure Entry where
  idx : Val
  val : Val
deriving DecidableEq

/-- A single-column chunk flowing through `rolling` (a pandas `Series`):
its rows in order. -/
abbrev RSeries := List Entry

/-- The `window` argument of `Streaming.rolling`: an `int` (row count) or
anything else, which the source converts with `pd.Timedelta` (duration). -/
inductive RWindow where
  | rows (n : ℕ)
  | duration (d : Val)

/-- Python `accumulator.iloc[-window:]` for an `int` window: the last
`window` rows — except that `-0:` is `0:` in Python, the whole list. -/
def ilocLast (window : ℕ) (l : List α) : List α :=
  if window = 0 then l else l.drop (l.length - window)

/-- Source `accumulator.index.max()`: the greatest index label (junk `0` on an
empty buffer, where pandas has no defined maximum). -/
def maxIdx (l : RSeries) : Val :=
  (l.map Entry.idx).foldr max 0

/-- Source `_roll(accumulator, new, window, min_periods)`: concatenate, trim to
the window (last `window` rows for a row count; rows with index within
`window` of the maximum index for a duration, i.e. `.loc[max-window:]` on
a monotone index), and emit the trimmed buffer when it has at least
`min_periods` rows, else the empty marker `[]`. -/
def _roll (accumulator new : RSeries) (window : RWindow)
    (min_periods : ℕ) : RSeries × RSeries :=
  let acc := accumulator ++ new
  let acc2 :=
    match window with
    | .rows n => ilocLast n acc
    | .duration d => acc.filter (fun e => decide (maxIdx acc - d ≤ e.idx))
  (acc2, if min_periods ≤ acc2.length then acc2 else [])

/-- Source `Streaming.rolling(window, min_periods=1)`: a duration window forces
`min_periods = 1`; then `scan(_roll, ...)` (no start, `returns_state=True`)
followed by `filter(len >= min_periods)`; the example is reused. -/
def Streaming.rolling (h : SStream α RSeries) (window : RWindow)
    (min_periods : ℕ) : SStream α RSeries :=
  let mp : ℕ :=
    match window with
    | .rows _ => min_periods
    | .duration _ => 1
  ⟨h.ex, fun cs =>
    (scanNoStart (fun a x => _roll a x window mp) (h.proc cs)).filter
      (fun x => decide (mp ≤ x.length))⟩

/-- One row of a chunk flowing into a static-key groupby: the group label
the static grouper assigns to the row, together with the row's value
(after any column selection).  `new.groupby(grouper)` with a constant
grouper groups rows by exactly these labels. -/
abbrev GRow := String × Val

/-- A keyed series produced by a grouped reduction (pandas `Series`
indexed by group key): `none` for keys absent from the index. -/
abbrev KTable := String → Option Val

/-- pandas `Series.add(other, fill_value=0)` at one key: keys present on
one side only keep their value (added to the fill `0`); keys present on
neither side stay absent. -/
def optAdd : Option Val → Option Val → Option Val
  | none, none => none
  | some x, none => some x
  | none, some y => some y
  | some x, some y => some (x + y)

/-- pandas `Series.add(other, fill_value=0)`: keyed outer-join addition. -/
def keyedAdd (a b : KTable) : KTable :=
  fun k => optAdd (a k) (b k)

/-- Source `new.groupby(grouper).sum()` for a static grouper (rows pre-tagged
with their group label): per key, the sum of that key's row values; keys
with no rows are absent. -/
def groupbySumC (new : List GRow) : KTable :=
  fun k =>
    if ((new.filter (fun r => decide (r.1 = k))).map Prod.snd).isEmpty
    then none
    else some ((new.filter (fun r => decide (r.1 = k))).map Prod.snd).sum

/-- Source `new.groupby(grouper).count()` for a static grouper: per key, the
number of rows carrying that key; keys with no rows are absent. -/
def groupbyCountC (new : List GRow) : KTable :=
  fun k =>
    if (new.filter (fun r => decide (r.1 = k))).length = 0
    then none
    else some (((new.filter (fun r => decide (r.1 = k))).length : ℕ) : Val)

/-- Pointwise ratio of two keyed series (`sums / counts`): keys absent on
either side have no finite ratio (pandas yields NaN there). -/
def optDiv : Option Val → Option Val → Option Val
  | some x, some y => some (x / y)
  | _, _ => none

/-- Source `sums / counts` on keyed series, pointwise. -/
def divTable (a b : KTable) : KTable :=
  fun k => optDiv (a k) (b k)

/-- Source `new.groupby(grouper).mean()` for a static grouper: per key the mean
of that key's rows, i.e. the grouped sum over the grouped count. -/
def groupbyMeanC (new : List GRow) : KTable :=
  fun k => optDiv (groupbySumC new k) (groupbyCountC new k)

/-- The dynamic type of the grouped-sum accumulator: the integer seed
`start = 0` before any chunk, or the keyed series after the first chunk
(the source branches on `isinstance(accumulator, int)`). -/
inductive GSumAcc where
  | intSeed (n : ℤ)
  | table (t : KTable)

/-- View a grouped accumulator as a keyed series; the integer seed has no
keys (it is never read as a table by the source). -/
def GSumAcc.toTable : GSumAcc → KTable
  | .intSeed _ => fun _ => none
  | .table t => t

/-- Source `_accumulate_groupby_sum(accumulator, new, grouper, index)` in the
static-grouper regime (grouper already applied to tag each row; column
selection already applied to the values): on the integer seed the chunk's
grouped sum replaces the accumulator outright; afterwards
`accumulator.add(g.sum(), fill_value=0)`. -/
def _accumulate_groupby_sum (accumulator : GSumAcc) (new : List GRow) :
    GSumAcc :=
  match accumulator with
  | .intSeed _ => .table (groupbySumC new)
  | .table t => .table (keyedAdd t (groupbySumC new))

/-- The grouped-mean accumulator `(sums, counts)`, each an integer seed
(`start = (0, 0)`) or a keyed series. -/
structure GMeanAcc where
  sums : GSumAcc
  counts : GSumAcc

/-- Source `_accumulate_groupby_mean(accumulator, new, grouper, index)` in the
static-grouper regime: on the first chunk (`isinstance(sums, int)`) the
state becomes the chunk's grouped sum and count; afterwards both are
extended by keyed addition with fill value 0.  The visible output is the
fresh pointwise ratio `sums / counts`.  (When `sums` is a table the
source reads `counts` as a table too; `toTable` makes that read total.) -/
def _accumulate_groupby_mean (accumulator : GMeanAcc) (new : List GRow) :
    GMeanAcc × KTable :=
  match accumulator.sums with
  | .intSeed _ =>
      (⟨.table (groupbySumC new), .table (groupbyCountC new)⟩,
       divTable (groupbySumC new) (groupbyCountC new))
  | .table s =>
      let s2 := keyedAdd s (groupbySumC new)
      let c2 := keyedAdd accumulator.counts.toTable (groupbyCountC new)
      (⟨.table s2, .table c2⟩, divTable s2 c2)

/-- Source `StreamingSeriesGroupby.sum()` with a static grouper:
`accumulate(_accumulate_groupby_sum, start=0)` on the root's node, with
the example derived eagerly as the grouped sum of the root's example. -/
def StreamingSeriesGroupby.sum (root : SStream α (List GRow)) :
    SStream α GSumAcc :=
  ⟨.table (groupbySumC root.ex),
   fun cs => scanAcc _accumulate_groupby_sum (.intSeed 0) (root.proc cs)⟩

/-- Source `StreamingSeriesGroupby.mean()` with a static grouper:
`accumulate(_accumulate_groupby_mean, start=(0, 0), returns_state=True)`,
with the example derived eagerly as the grouped mean of the root's
example. -/
def StreamingSeriesGroupby.mean (root : SStream α (List GRow)) :
    SStream α KTable :=
  ⟨groupbyMeanC root.ex,
   fun cs =>
     scanAccState _accumulate_groupby_mean ⟨.intSeed 0, .intSeed 0⟩
       (root.proc cs)⟩

/-- The error raised by `verify`/`emit`: the base class's `TypeError`
(chunk not of the expected kind — in this typed embedding that case is
excluded statically) or the frame variant's `IndexError` for a
column-schema violation, carrying the expected and the offending column
lists. -/
inductive EmitError where
  | typeViolation
  | schemaViolation (expected got : List String)
deriving DecidableEq

/-- Source `StreamingDataFrame.verify(x)`: after the base kind check, compare
`list(x.columns)` with `list(example.columns)`; a mismatch raises the
schema-violation error. -/
def StreamingDataFrame.verify (ex x : DFrame) : Option EmitError :=
  if x.cols = ex.cols then none
  else some (.schemaViolation ex.cols x.cols)

/-- The observable state of a frame handle together with downstream
accumulators fed by its node: the handle's example, a downstream
`sum()` accumulator state, and a downstream `mean()` accumulator state. -/
structure EmitWorld where
  ex : DFrame
  sumAcc : String → Val
  meanAcc : MeanState

/-- Source `Streaming.emit(x)` on a frame handle: run `verify` first; only when
it passes does the chunk enter the graph and advance the downstream
accumulators.  A failed `verify` raises before `stream.emit`, leaving the
world untouched. -/
def StreamingDataFrame.emit (w : EmitWorld) (x : DFrame) :
    EmitWorld × Option EmitError :=
  match StreamingDataFrame.verify w.ex x with
  | some e => (w, some e)
  | none =>
      (⟨w.ex, _accumulate_sum w.sumAcc x, (_accumulate_mean w.meanAcc x).1⟩,
       none)

/-- A heap of `MeanState` objects: Python object identity made explicit so
that `.copy()` and in-place `+=` mutation can be spoken about.  `vals i`
is the object stored at reference `i`; references below `next` are live. -/
structure MStore where
  vals : ℕ → MeanState
  next : ℕ

/-- Python `accumulator.copy()`: allocate a fresh reference holding the
same value and return it; the original object is untouched. -/
def MStore.copy (s : MStore) (r : ℕ) : MStore × ℕ :=
  (⟨fun i => if i = s.next then s.vals r else s.vals i, s.next + 1⟩, s.next)

/-- Python `accumulator['sums'] += d`: in-place update of the `sums`
column of the object at reference `r`. -/
def MStore.addSums (s : MStore) (r : ℕ) (d : String → Val) : MStore :=
  ⟨fun i =>
    if i = r then ⟨fun c => (s.vals r).sums c + d c, (s.vals r).counts⟩
    else s.vals i, s.next⟩

/-- Python `accumulator['counts'] += d`: in-place update of the `counts`
column of the object at reference `r`. -/
def MStore.addCounts (s : MStore) (r : ℕ) (d : String → Val) : MStore :=
  ⟨fun i =>
    if i = r then ⟨(s.vals r).sums, fun c => (s.vals r).counts c + d c⟩
    else s.vals i, s.next⟩

/-- Source `_accumulate_mean` with Python object mutation made explicit
(store-passing): copy the incoming accumulator object, mutate only the
copy with `+=` on its `sums` and `counts` columns, and return the store,
the reference to the new state object, and the visible ratio. -/
def _accumulate_mean_ref (s : MStore) (r : ℕ) (new : DFrame) :
    MStore × ℕ × (String → Val) :=
  let s1r1 := s.copy r
  let s2 := s1r1.1.addSums s1r1.2 new.sum
  let s3 := s2.addCounts s1r1.2 new.count
  (s3, s1r1.2,
   fun c => (s3.vals s1r1.2).sums c / (s3.vals s1r1.2).counts c)

def csW2 : List (List GRow) := [[("A", 1), ("B", 2)], [("A", 3)]]

def rollChunk1 : RSeries := [⟨0, 1⟩]

def rollChunk2 : RSeries := [⟨0, 2⟩]

def rollChunk3 : RSeries := [⟨0, 3⟩]

def rollChunk4 : RSeries := [⟨0, 4⟩]

def wW4 : EmitWorld := ⟨⟨["a", "b"], []⟩, fun _ => 0, ⟨fun _ => 0, fun _ => 0⟩⟩

def xW4 : DFrame := ⟨["a"], []⟩

def StreamingDataFrame.getitem (h : SStream α DFrame) (c : String) :
    SStream α (List Val) :=
  Streaming.map_partitions h (fun df => df.getitemCol c) none

def StreamingDataFrame.getattr (h : SStream α DFrame) (c : String) :
    Option (SStream α (List Val)) :=
  if c ∈ h.ex.cols then
    some (Streaming.map_partitions h (fun df => df.getattrCol c) none)
  else none

def exW8 : DFrame := ⟨["a", "b"], []⟩

def csW8 : List DFrame := [⟨["a", "b"], [fun _ => 5]⟩]

def sW10 : MStore := ⟨fun _ => ⟨fun _ => 1, fun _ => 2⟩, 1⟩

def newW10 : DFrame := ⟨["a"], [fun _ => 7]⟩

def exW1 : DFrame := ⟨["a"], []⟩

def csW1 : List DFrame := [⟨["a"], [fun _ => 1]⟩, ⟨["a"], [fun _ => 2]⟩]

def exW5 : DFrame := ⟨["a"], []⟩

def csW5 : List DFrame := [⟨["a"], [fun _ => 1]⟩, ⟨["a"], [fun _ => 2]⟩]

lemma scanAcc_sum_getD (cs : List DFrame) :
    ∀ (a : String → Val) (k : ℕ), k < cs.length → ∀ c : String,
      (scanAcc _accumulate_sum a cs).getD k (fun _ => 0) c
        = a c + ((cs.take (k + 1)).map (fun ch => ch.sum c)).sum := by
  induction cs with
  | nil => intro a k hk c; simp at hk
  | cons x rest ih =>
      intro a k hk c
      cases k with
      | zero => simp [scanAcc, _accumulate_sum]
      | succ k =>
          have hk2 : k < rest.length := by simpa using hk
          simp only [scanAcc, List.getD_cons_succ, List.take_succ_cons,
            List.map_cons, List.sum_cons]
          rw [ih (_accumulate_sum a x) k hk2 c]
          simp [_accumulate_sum, add_assoc]

lemma scanAccState_mean_getD (cs : List DFrame) :
    ∀ (a : MeanState) (k : ℕ), k < cs.length → ∀ c : String,
      (scanAccState _accumulate_mean a cs).getD k (fun _ => 0) c
        = (a.sums c + ((cs.take (k + 1)).map (fun ch => ch.sum c)).sum)
          / (a.counts c + ((cs.take (k + 1)).map (fun ch => ch.count c)).sum) := by
  induction cs with
  | nil => intro a k hk c; simp at hk
  | cons x rest ih =>
      intro a k hk c
      cases k with
      | zero => simp [scanAccState, _accumulate_mean]
      | succ k =>
          have hk2 : k < rest.length := by simpa using hk
          simp only [scanAccState, List.getD_cons_succ, List.take_succ_cons,
            List.map_cons, List.sum_cons]
          rw [ih (_accumulate_mean a x).1 k hk2 c]
          simp [_accumulate_mean, add_assoc]

lemma scanState_mean (cs : List DFrame) :
    ∀ (a : MeanState) (c : String),
      (scanState _accumulate_mean a cs).sums c
          = a.sums c + (cs.map (fun ch => ch.sum c)).sum
        ∧ (scanState _accumulate_mean a cs).counts c
          = a.counts c + (cs.map (fun ch => ch.count c)).sum := by
  induction cs with
  | nil => intro a c; simp [scanState]
  | cons x rest ih =>
      intro a c
      have h := ih (_accumulate_mean a x).1 c
      constructor
      · rw [show scanState _accumulate_mean a (x :: rest)
            = scanState _accumulate_mean (_accumulate_mean a x).1 rest from rfl,
          h.1]
        simp [_accumulate_mean, add_assoc]
      · rw [show scanState _accumulate_mean a (x :: rest)
            = scanState _accumulate_mean (_accumulate_mean a x).1 rest from rfl,
          h.2]
        simp [_accumulate_mean, add_assoc]

lemma optAdd_assoc (a b c : Option Val) :
    optAdd (optAdd a b) c = optAdd a (optAdd b c) := by
  cases a <;> cases b <;> cases c <;> simp [optAdd] <;> ring

lemma optSum_append (va vb : List Val) :
    (if (va ++ vb).isEmpty then none else some ((va ++ vb).sum : Val))
      = optAdd (if va.isEmpty then none else some va.sum)
          (if vb.isEmpty then none else some vb.sum) := by
  cases va <;> cases vb <;> simp [optAdd, List.sum_append] <;> ring

lemma groupbySumC_append (a b : List GRow) (k : String) :
    groupbySumC (a ++ b) k = optAdd (groupbySumC a k) (groupbySumC b k) := by
  simp only [groupbySumC, List.filter_append, List.map_append]
  exact optSum_append _ _

lemma optCount_append (na nb : ℕ) :
    (if na + nb = 0 then none else some (((na + nb : ℕ)) : Val))
      = optAdd (if na = 0 then none else some ((na : ℕ) : Val))
          (if nb = 0 then none else some ((nb : ℕ) : Val)) := by
  by_cases ha : na = 0 <;> by_cases hb : nb = 0 <;>
    simp [ha, hb, optAdd, Nat.add_eq_zero, Nat.cast_add]

lemma groupbyCountC_append (a b : List GRow) (k : String) :
    groupbyCountC (a ++ b) k
      = optAdd (groupbyCountC a k) (groupbyCountC b k) := by
  simp only [groupbyCountC, List.filter_append, List.length_append]
  exact optCount_append _ _

lemma gsum_scan_table (cs : List (List GRow)) :
    ∀ (t : KTable) (k : ℕ), k < cs.length → ∀ key : String,
      ((scanAcc _accumulate_groupby_sum (.table t) cs).getD k
          (.intSeed 0)).toTable key
        = optAdd (t key) (groupbySumC (cs.take (k + 1)).flatten key) := by
  induction cs with
  | nil => intro t k hk key; simp at hk
  | cons x rest ih =>
      intro t k hk key
      cases k with
      | zero =>
          simp [scanAcc, _accumulate_groupby_sum, GSumAcc.toTable, keyedAdd,
            groupbySumC_append]
      | succ k =>
          have hk2 : k < rest.length := by simpa using hk
          simp only [scanAcc, List.getD_cons_succ, _accumulate_groupby_sum]
          rw [ih (keyedAdd t (groupbySumC x)) k hk2 key]
          simp only [keyedAdd, List.take_succ_cons, List.flatten_cons,
            groupbySumC_append, optAdd_assoc]

lemma gsum_scan_seed (cs : List (List GRow)) (k : ℕ) (hk : k < cs.length)
    (key : String) :
    ((scanAcc _accumulate_groupby_sum (.intSeed 0) cs).getD k
        (.intSeed 0)).toTable key
      = groupbySumC (cs.take (k + 1)).flatten key := by
  cases cs with
  | nil => simp at hk
  | cons x rest =>
      cases k with
      | zero => simp [scanAcc, _accumulate_groupby_sum, GSumAcc.toTable]
      | succ k =>
          have hk2 : k < rest.length := by simpa using hk
          simp only [scanAcc, List.getD_cons_succ, _accumulate_groupby_sum]
          rw [gsum_scan_table rest (groupbySumC x) k hk2 key]
          simp only [List.take_succ_cons, List.flatten_cons, groupbySumC_append]

lemma gmean_scan_table (cs : List (List GRow)) :
    ∀ (s c : KTable) (k : ℕ), k < cs.length → ∀ key : String,
      (scanAccState _accumulate_groupby_mean ⟨.table s, .table c⟩ cs).getD k
          (fun _ => none) key
        = optDiv (optAdd (s key) (groupbySumC (cs.take (k + 1)).flatten key))
            (optAdd (c key) (groupbyCountC (cs.take (k + 1)).flatten key)) := by
  induction cs with
  | nil => intro s c k hk key; simp at hk
  | cons x rest ih =>
      intro s c k hk key
      cases k with
      | zero =>
          simp [scanAccState, _accumulate_groupby_mean, divTable, keyedAdd,
            GSumAcc.toTable, groupbySumC_append, groupbyCountC_append]
      | succ k =>
          have hk2 : k < rest.length := by simpa using hk
          simp only [scanAccState, List.getD_cons_succ,
            _accumulate_groupby_mean, GSumAcc.toTable]
          rw [ih (keyedAdd s (groupbySumC x)) (keyedAdd c (groupbyCountC x))
            k hk2 key]
          simp only [keyedAdd, List.take_succ_cons, List.flatten_cons,
            groupbySumC_append, groupbyCountC_append, optAdd_assoc]

lemma gmean_scan_seed (cs : List (List GRow)) (k : ℕ) (hk : k < cs.length)
    (key : String) :
    (scanAccState _accumulate_groupby_mean ⟨.intSeed 0, .intSeed 0⟩ cs).getD k
        (fun _ => none) key
      = groupbyMeanC (cs.take (k + 1)).flatten key := by
  cases cs with
  | nil => simp at hk
  | cons x rest =>
      cases k with
      | zero =>
          simp [scanAccState, _accumulate_groupby_mean, divTable, groupbyMeanC]
      | succ k =>
          have hk2 : k < rest.length := by simpa using hk
          simp only [scanAccState, List.getD_cons_succ,
            _accumulate_groupby_mean]
          rw [gmean_scan_table rest (groupbySumC x) (groupbyCountC x) k hk2 key]
          simp only [groupbyMeanC, List.take_succ_cons, List.flatten_cons,
            groupbySumC_append, groupbyCountC_append]

/-- C1: running sum correctness.  For every finite sequence of chunks
emitted through a frame handle's `sum()` (an accumulation of
`_accumulate_sum` with start `0`), the visible output after the k-th
chunk equals, per column, the sum over the first k chunks of the
chunk-level column sums. -/
theorem C1_running_sum (ex : DFrame) (cs : List DFrame) (k : ℕ)
    (hk : k < cs.length) (c : String) :
    ((StreamingFrame.sum (sourceHandle ex)).proc cs).getD k (fun _ => 0) c
      = ((cs.take (k + 1)).map (fun ch => ch.sum c)).sum := by
  have h := scanAcc_sum_getD cs (fun _ => 0) k hk c
  simpa [StreamingFrame.sum, Streaming.accumulate_partitions, sourceHandle]
    using h

/-- Concrete instantiation of `C1_running_sum` at a two-chunk input. -/
theorem C1_witness :
    1 < csW1.length
  ∧ ((StreamingFrame.sum (sourceHandle exW1)).proc csW1).getD 1
        (fun _ => 0) "a"
      = ((csW1.take (1 + 1)).map (fun ch => ch.sum "a")).sum :=
  ⟨by decide, C1_running_sum exW1 csW1 1 (by decide) "a"⟩

/-- C2: grouped static-key sum/mean is a homomorphism of batch grouping.
For every nonempty sequence of chunks emitted through
`groupby(static key).sum()` resp. `.mean()`, the final visible output
equals, at every group key, the grouped sum resp. grouped mean computed
once over the row-wise concatenation of all chunks — groups present in
only a subset of chunks are merged by the fill-value-0 outer-join keyed
addition. -/
theorem C2_grouped_static_key (cs : List (List GRow)) (hne : cs ≠ [])
    (key : String) :
    (((StreamingSeriesGroupby.sum (sourceHandle [])).proc cs).getD
        (cs.length - 1) (.intSeed 0)).toTable key
      = groupbySumC cs.flatten key
  ∧ ((StreamingSeriesGroupby.mean (sourceHandle [])).proc cs).getD
        (cs.length - 1) (fun _ => none) key
      = groupbyMeanC cs.flatten key := by
  have hlen : 0 < cs.length := List.length_pos.mpr hne
  have hk : cs.length - 1 < cs.length := by omega
  have htake : cs.take (cs.length - 1 + 1) = cs := by
    have h2 : cs.length - 1 + 1 = cs.length := by omega
    rw [h2, List.take_length]
  constructor
  · have h := gsum_scan_seed cs (cs.length - 1) hk key
    rw [htake] at h
    simpa [StreamingSeriesGroupby.sum, sourceHandle] using h
  · have h := gmean_scan_seed cs (cs.length - 1) hk key
    rw [htake] at h
    simpa [StreamingSeriesGroupby.mean, sourceHandle] using h

/-- Concrete instantiation of `C2_grouped_static_key`: two chunks with partial group membership. -/
theorem C2_witness :
    csW2 ≠ []
  ∧ ((((StreamingSeriesGroupby.sum (sourceHandle [])).proc csW2).getD
        (csW2.length - 1) (.intSeed 0)).toTable "A"
      = groupbySumC csW2.flatten "A"
    ∧ ((StreamingSeriesGroupby.mean (sourceHandle [])).proc csW2).getD
        (csW2.length - 1) (fun _ => none) "A"
      = groupbyMeanC csW2.flatten "A") :=
  ⟨by simp [csW2], C2_grouped_static_key csW2 (by simp [csW2]) "A"⟩

/-- C3: rolling row-count window trace.  With `rolling(window=3,
min_periods=2)`, emitting the 1-row chunks with values 1, 2, 3, 4 in
order produces no visible tick after chunk 1, the buffer [1,2] after
chunk 2, [1,2,3] after chunk 3 and [2,3,4] after chunk 4 (the oldest row
dropped); ticks whose trimmed buffer is shorter than `min_periods` are
suppressed entirely by the downstream filter. -/
theorem C3_rolling_trace :
    (Streaming.rolling (sourceHandle ([] : RSeries)) (.rows 3) 2).proc
        [rollChunk1] = []
  ∧ (Streaming.rolling (sourceHandle ([] : RSeries)) (.rows 3) 2).proc
        [rollChunk1, rollChunk2] = [[⟨0, 1⟩, ⟨0, 2⟩]]
  ∧ (Streaming.rolling (sourceHandle ([] : RSeries)) (.rows 3) 2).proc
        [rollChunk1, rollChunk2, rollChunk3]
      = [[⟨0, 1⟩, ⟨0, 2⟩], [⟨0, 1⟩, ⟨0, 2⟩, ⟨0, 3⟩]]
  ∧ (Streaming.rolling (sourceHandle ([] : RSeries)) (.rows 3) 2).proc
        [rollChunk1, rollChunk2, rollChunk3, rollChunk4]
      = [[⟨0, 1⟩, ⟨0, 2⟩], [⟨0, 1⟩, ⟨0, 2⟩, ⟨0, 3⟩],
         [⟨0, 2⟩, ⟨0, 3⟩, ⟨0, 4⟩]] := by
  decide

/-- C4: schema enforcement with atomicity.  Emitting a chunk whose column
list differs from the handle's example (for instance columns [a] against
an example with columns [a, b]) returns the schema-violation error
synchronously and leaves the world — the example and every downstream
accumulator state — exactly as it was: the chunk never enters the
graph. -/
theorem C4_schema_enforcement (w : EmitWorld) (x : DFrame)
    (hx : x.cols ≠ w.ex.cols) :
    StreamingDataFrame.emit w x
      = (w, some (.schemaViolation w.ex.cols x.cols)) := by
  simp [StreamingDataFrame.emit, StreamingDataFrame.verify, hx]

/-- Concrete instantiation of `C4_schema_enforcement`: example columns [a, b], chunk columns [a]. -/
theorem C4_witness :
    xW4.cols ≠ wW4.ex.cols
  ∧ StreamingDataFrame.emit wW4 xW4
      = (wW4, some (.schemaViolation wW4.ex.cols xW4.cols)) :=
  ⟨by decide, C4_schema_enforcement wW4 xW4 (by decide)⟩

/-- C5: running mean correctness.  After emitting the first k chunks
through a frame handle's `mean()`, the visible output equals, per
column, the sum of the chunk sums divided by the sum of the chunk
counts; the carried state is exactly the pair of those running sums and
running counts (the visible ratio is recomputed at each tick, never
stored as state). -/
theorem C5_running_mean (ex : DFrame) (cs : List DFrame) (k : ℕ)
    (hk : k < cs.length) (c : String) :
    ((StreamingDataFrame.mean (sourceHandle ex)).proc cs).getD k (fun _ => 0) c
        = ((cs.take (k + 1)).map (fun ch => ch.sum c)).sum
          / ((cs.take (k + 1)).map (fun ch => ch.count c)).sum
      ∧ (scanState _accumulate_mean ⟨fun _ => 0, fun _ => 0⟩ (cs.take (k + 1))).sums c
        = ((cs.take (k + 1)).map (fun ch => ch.sum c)).sum
      ∧ (scanState _accumulate_mean ⟨fun _ => 0, fun _ => 0⟩ (cs.take (k + 1))).counts c
        = ((cs.take (k + 1)).map (fun ch => ch.count c)).sum := by
  refine ⟨?_, ?_, ?_⟩
  · have h := scanAccState_mean_getD cs ⟨fun _ => 0, fun _ => 0⟩ k hk c
    simpa [StreamingDataFrame.mean, Streaming.accumulate_partitions_rs,
      sourceHandle] using h
  · simpa using (scanState_mean (cs.take (k + 1)) ⟨fun _ => 0, fun _ => 0⟩ c).1
  · simpa using (scanState_mean (cs.take (k + 1)) ⟨fun _ => 0, fun _ => 0⟩ c).2

/-- Concrete instantiation of `C5_running_mean` at a two-chunk input. -/
theorem C5_witness :
    1 < csW5.length
  ∧ (((StreamingDataFrame.mean (sourceHandle exW5)).proc csW5).getD 1
          (fun _ => 0) "a"
        = ((csW5.take (1 + 1)).map (fun ch => ch.sum "a")).sum
          / ((csW5.take (1 + 1)).map (fun ch => ch.count "a")).sum
      ∧ (scanState _accumulate_mean ⟨fun _ => 0, fun _ => 0⟩
            (csW5.take (1 + 1))).sums "a"
        = ((csW5.take (1 + 1)).map (fun ch => ch.sum "a")).sum
      ∧ (scanState _accumulate_mean ⟨fun _ => 0, fun _ => 0⟩
            (csW5.take (1 + 1))).counts "a"
        = ((csW5.take (1 + 1)).map (fun ch => ch.count "a")).sum) :=
  ⟨by decide, C5_running_mean exW5 csW5 1 (by decide) "a"⟩


/-- C6: idempotent example derivation.  For `map_partitions` with a user
function, for the arithmetic operator `+` over a constant, and for the
grouped static-key `sum()`, the derived handle's example equals the
identical operation applied directly to the parent handle's example. -/
theorem C6_example_idempotent :
    (∀ (α γ : Type) (h : SStream α DFrame) (func : DFrame → γ),
        (Streaming.map_partitions h func none).ex = func h.ex)
  ∧ (∀ (α : Type) (h : SStream α DFrame) (y : Val),
        (Streaming.add h y).ex = h.ex.addScalar y)
  ∧ (∀ (α : Type) (root : SStream α (List GRow)),
        (StreamingSeriesGroupby.sum root).ex = .table (groupbySumC root.ex)) :=
  ⟨fun _ _ _ _ => rfl, fun _ _ _ => rfl, fun _ _ => rfl⟩

/-- C7: duration windows force `min_periods` to 1.  For a non-integer
(duration) window the rolling node behaves identically whatever
`min_periods` the caller supplies — the effective value in both the scan
and the suppression filter is 1 — while for integer row-count windows
the caller's `min_periods` is the one threaded into both the scan state
and the output filter. -/
theorem C7_duration_min_periods :
    (∀ (α : Type) (d : Val) (mp : ℕ) (h : SStream α RSeries) (cs : List α),
        (Streaming.rolling h (.duration d) mp).proc cs
          = (Streaming.rolling h (.duration d) 1).proc cs)
  ∧ (∀ (α : Type) (n mp : ℕ) (h : SStream α RSeries) (cs : List α),
        (Streaming.rolling h (.rows n) mp).proc cs
          = (scanNoStart (fun a x => _roll a x (.rows n) mp)
              (h.proc cs)).filter (fun x => decide (mp ≤ x.length))) :=
  ⟨fun _ _ _ _ _ => rfl, fun _ _ _ _ _ => rfl⟩

/-- C8: attribute-style column access is equivalent to subscripting.  For
every frame handle and every name among the example's columns, the
handle produced by `__getattr__` exists and has the same example and the
same per-chunk outputs as the handle produced by `__getitem__`, on every
chunk sequence that satisfies the handle's column schema. -/
theorem C8_attr_eq_getitem (ex : DFrame) (c : String) (cs : List DFrame)
    (hc : c ∈ ex.cols) (hcs : ∀ ch ∈ cs, ch.cols = ex.cols) :
    ∃ g, StreamingDataFrame.getattr (sourceHandle ex) c = some g
      ∧ g.ex = (StreamingDataFrame.getitem (sourceHandle ex) c).ex
      ∧ g.proc cs
          = (StreamingDataFrame.getitem (sourceHandle ex) c).proc cs := by
  refine ⟨Streaming.map_partitions (sourceHandle ex)
      (fun df => df.getattrCol c) none, ?_, ?_, ?_⟩
  · simp [StreamingDataFrame.getattr, sourceHandle, hc]
  · simp [Streaming.map_partitions, StreamingDataFrame.getitem, sourceHandle,
      DFrame.getattrCol, hc]
  · show cs.map (fun df => df.getattrCol c)
        = cs.map (fun df => df.getitemCol c)
    apply List.map_congr_left
    intro ch hch
    have hm : c ∈ ch.cols := by rw [hcs ch hch]; exact hc
    simp [DFrame.getattrCol, hm]

/-- Concrete instantiation of `C8_attr_eq_getitem` at column a of an [a, b] frame. -/
theorem C8_witness :
    ∃ g, StreamingDataFrame.getattr (sourceHandle exW8) "a" = some g
      ∧ g.ex = (StreamingDataFrame.getitem (sourceHandle exW8) "a").ex
      ∧ g.proc csW8
          = (StreamingDataFrame.getitem (sourceHandle exW8) "a").proc csW8 :=
  C8_attr_eq_getitem exW8 "a" csW8 (by decide)
    (by intro ch hch; simp only [csW8, List.mem_singleton] at hch; subst hch; rfl)

/-- C9: first-chunk bootstrap of grouped accumulators.  While the carried
accumulator is still the integer seed, `_accumulate_groupby_sum` returns
exactly the grouped sum of the chunk alone (the seed is discarded, not
added) and `_accumulate_groupby_mean` initializes its state from the
chunk's grouped sum and grouped count; on a table accumulator both apply
the keyed addition with fill value 0. -/
theorem C9_first_chunk_bootstrap :
    (∀ (n : ℤ) (new : List GRow),
        _accumulate_groupby_sum (.intSeed n) new = .table (groupbySumC new))
  ∧ (∀ (t : KTable) (new : List GRow) (k : String),
        (_accumulate_groupby_sum (.table t) new).toTable k
          = keyedAdd t (groupbySumC new) k)
  ∧ (∀ (m : ℤ) (c : GSumAcc) (new : List GRow),
        _accumulate_groupby_mean ⟨.intSeed m, c⟩ new
          = (⟨.table (groupbySumC new), .table (groupbyCountC new)⟩,
             groupbyMeanC new))
  ∧ (∀ (s c : KTable) (new : List GRow) (k : String),
        ((_accumulate_groupby_mean ⟨.table s, .table c⟩ new).1.sums.toTable k
            = keyedAdd s (groupbySumC new) k)
      ∧ ((_accumulate_groupby_mean ⟨.table s, .table c⟩ new).1.counts.toTable k
            = keyedAdd c (groupbyCountC new) k)) := by
  exact ⟨fun n new => rfl, fun t new k => rfl, fun m c new => rfl,
    fun s c new k => ⟨rfl, rfl⟩⟩

/-- C10: the mean accumulator never mutates its input state.  In the
store-passing embedding of `_accumulate_mean` (which makes Python object
identity, `.copy()` and in-place `+=` explicit), the object the caller
passed in holds exactly the same value after the call: only the fresh
copy is mutated. -/
theorem C10_mean_no_mutation (s : MStore) (r : ℕ) (new : DFrame)
    (hr : r < s.next) :
    ((_accumulate_mean_ref s r new).1).vals r = s.vals r := by
  have h1 : r ≠ s.next := by omega
  simp [_accumulate_mean_ref, MStore.copy, MStore.addSums, MStore.addCounts, h1]

/-- Concrete instantiation of `C10_mean_no_mutation` at a one-object store. -/
theorem C10_witness :
    0 < sW10.next
  ∧ ((_accumulate_mean_ref sW10 0 newW10).1).vals 0 = sW10.vals 0 :=
  ⟨by decide, C10_mean_no_mutation sW10 0 newW10 (by decide)⟩
